import Mathlib

/-!
# Verification of timetraveller's fetch / worker pipeline

Shallow embedding of the Go sources of `aleister1102/timetraveller`:
`fetchURLData` (the CDX fetcher with retry/backoff), `worker` (the pool
worker loop), and the result aggregation in `main`.

The network environment is modelled as a function from attempt number to
the observable outcome of that attempt (`client.Do` error, body read
error, or a response with a status code and a body).  The body is
abstracted to exactly what the code observes of it: whether
`strings.Contains(body, rateLimitMessage)` holds, and the outcome of
`json.NewDecoder(body).Decode(&cdxResponse)` into `[][]interface{}`
(io.EOF, a decode error together with the rows decoded so far, or a
successfully decoded list of rows).  A row element is abstracted to the
one observation made of it, the `.(string)` type assertion.

Backoff sleeps and upstream HTTP requests are recorded in an event trace.
-/

/-- A JSON value occurring inside a CDX row, abstracted to the only
observation the code makes of it (the `.(string)` type assertion):
either a string or some non-string value. -/
inductive JVal where
  | str (s : String)
  | other
deriving DecidableEq, Repr

/-- `SnapshotEntry` from types.go: one CDX row, `[]interface{}`. -/
abbrev SnapshotEntry := List JVal

/-- Outcome of `json.NewDecoder(resp.Body).Decode(&cdxResponse)`:
`eof` is `io.EOF` (empty body); `fail` is any other decode error,
carrying the rows already decoded into `cdxResponse` when the error was
reported; `ok` is a successful decode. -/
inductive DecodeOutcome where
  | eof
  | fail (msg : String) (decodedRows : List SnapshotEntry)
  | ok (rows : List SnapshotEntry)
deriving DecidableEq, Repr

/-- What the code observes of a response body. -/
structure Body where
  /-- `strings.Contains(string(bodyBytes), "You have sent too many requests in a given amount of time.")` -/
  hasRateLimitMsg : Bool
  /-- result of JSON-decoding the body into `[][]interface{}` -/
  decode : DecodeOutcome
deriving DecidableEq, Repr

/-- Observable outcome of one attempt: `client.Do` failing (Go returns a
nil response then), `io.ReadAll(resp.Body)` failing, or a response with
an HTTP status code and a body. -/
inductive AttemptResult where
  | netErr (msg : String)
  | readErr (msg : String)
  | resp (status : Nat) (body : Body)
deriving DecidableEq, Repr

/-- Go `error` values built by `fetchURLData` via `fmt.Errorf`; `%w`
wrapping is kept structurally. -/
inductive GoErr where
  /-- transport error returned by `client.Do` -/
  | netError (msg : String)
  /-- `io.ReadAll` failure: "error reading response body: %w" -/
  | readBodyErr (msg : String)
  /-- "API request failed due to rate limiting. Status: %s" -/
  | rateLimitErr (status : Nat)
  /-- "API request failed with server error. Status: %s" -/
  | serverErr (status : Nat)
  /-- "error fetching data after %d retries: %w" -/
  | fetchAfterRetries (retries : Nat) (cause : GoErr)
  /-- "%w after %d retries" -/
  | afterRetries (cause : GoErr) (retries : Nat)
  /-- "unknown error; no response received" -/
  | unknownNoResponse
  /-- "failed to get a response after all retries: %w" -/
  | noResponseErr (cause : GoErr)
  /-- "API request failed. Status: %s, Body: %s" (non-200 status) -/
  | httpStatusErr (status : Nat)
  /-- "error decoding JSON response: %w" -/
  | decodeErr (msg : String)
deriving DecidableEq, Repr

/-- `ProcessResult` from types.go.  Fields start at Go zero values. -/
structure ProcessResult where
  url : String
  status : String := ""
  snapshotCount : Nat := 0
  oldestURL : String := ""
  error : Option GoErr := none
deriving DecidableEq, Repr

/-- Side effects of the attempt loop we track: backoff sleeps (duration
in milliseconds) and upstream HTTP requests, in program order. -/
inductive Event where
  | sleep (ms : Nat)
  | request
deriving DecidableEq, Repr

/-- Is this event an upstream HTTP request? -/
def Event.isRequest : Event → Bool
  | .request => true
  | .sleep _ => false

/-- Number of upstream HTTP requests in a trace. -/
def requestCount (t : List Event) : Nat :=
  t.countP Event.isRequest

/-- How the attempt loop of `fetchURLData` ends: `ret` is an early
`return` from inside the loop; `done` is reaching the code after the
loop (by `break`, or by the loop condition failing), carrying the
current values of the `resp` and `lastErr` variables. -/
inductive LoopRes where
  | ret (r : ProcessResult) (trace : List Event)
  | done (resp : Option (Nat × Body)) (lastErr : Option GoErr) (trace : List Event)
deriving DecidableEq, Repr

/-- Prepend events to the trace of a loop outcome. -/
def withTrace (pre : List Event) : LoopRes → LoopRes
  | .ret r t => .ret r (pre ++ t)
  | .done resp lastErr t => .done resp lastErr (pre ++ t)

/-- The trace of a loop outcome. -/
def LoopRes.trace : LoopRes → List Event
  | .ret _ t => t
  | .done _ _ t => t

/-- The attempt loop of `fetchURLData` (part_001 lines 35-95):
`for attempt := 0; attempt <= retryAttempts; attempt++`.  `fuel` is the
number of loop-condition checks remaining, so the loop condition
`attempt <= retryAttempts` corresponds to `0 < fuel` under the top-level
call's invariant `attempt + fuel = retryAttempts + 1`; `fuel = 0` is the
loop condition failing (normal loop exit).  `resp` and `lastErr` are the
mutable variables of the Go code, threaded through the recursion. -/
def fetchLoop (env : Nat → AttemptResult) (targetURL : String)
    (retryAttempts retryDelayMs : Nat) (attempt fuel : Nat)
    (resp : Option (Nat × Body)) (lastErr : Option GoErr) : LoopRes :=
  match fuel with
  | 0 => .done resp lastErr []
  | fuel + 1 =>
    -- exponential backoff sleep before retrying, then the HTTP request
    let pre : List Event :=
      if 0 < attempt then
        [.sleep (retryDelayMs * 2 ^ (attempt - 1)), .request]
      else
        [.request]
    match env attempt with
    | .netErr msg =>
      if attempt < retryAttempts then
        withTrace pre
          (fetchLoop env targetURL retryAttempts retryDelayMs (attempt + 1) fuel
            none (some (.netError msg)))
      else
        .ret { url := targetURL, status := "error",
               error := some (.fetchAfterRetries retryAttempts (.netError msg)) } pre
    | .readErr msg =>
      .ret { url := targetURL, status := "error",
             error := some (.readBodyErr msg) } pre
    | .resp st body =>
      if (st == 429) || (decide (500 ≤ st) && decide (st < 600)) || body.hasRateLimitMsg then
        let le : GoErr :=
          if (st == 429) || body.hasRateLimitMsg then .rateLimitErr st else .serverErr st
        if attempt < retryAttempts then
          withTrace pre
            (fetchLoop env targetURL retryAttempts retryDelayMs (attempt + 1) fuel
              (some (st, body)) (some le))
        else
          .ret { url := targetURL, status := "error",
                 error := some (.afterRetries le retryAttempts) } pre
      else
        -- not a network error and not retryable: break the loop
        .done (some (st, body)) lastErr pre

/-- Sentinel set when the chosen snapshot entry has at most 2 fields. -/
def sentinelFewFields : String :=
  "could not determine (not enough fields in snapshot data)"

/-- Sentinel set when field 1 or 2 of the chosen entry is not a string. -/
def sentinelBadTypes : String :=
  "could not determine (error parsing snapshot data)"

/-- Link construction from the chosen entry (part_001 lines 154-165). -/
def finishEntry (result : ProcessResult) (chosenEntry : SnapshotEntry) : ProcessResult :=
  if 2 < chosenEntry.length then
    match chosenEntry.get? 1, chosenEntry.get? 2 with
    | some (.str timestamp), some (.str originalURL) =>
      { result with oldestURL :=
          "http://web.archive.org/web/" ++ timestamp ++ "/" ++ originalURL }
    | _, _ =>
      { result with oldestURL := sentinelBadTypes }
  else
    { result with oldestURL := sentinelFewFields }

/-- Snapshot counting, selection and link construction
(part_001 lines 138-168).  Go's local `snapshotCount` is
`snapshots.length`, inlined here. -/
def processSnapshots (result : ProcessResult) (latest : Bool)
    (snapshots : List SnapshotEntry) : ProcessResult :=
  if 0 < snapshots.length then
    if latest ∧ 0 < snapshots.length then
      finishEntry { result with status := "found", snapshotCount := snapshots.length }
        (snapshots.getLastD [])
    else if 0 < snapshots.length then
      finishEntry { result with status := "found", snapshotCount := snapshots.length }
        (snapshots.headD [])
    else
      -- "Should be caught earlier, but defensive"
      { result with snapshotCount := snapshots.length, status := "not found" }
  else
    { result with status := "not found" }

/-- Post-loop processing of the response (part_001 lines 109-169):
status check, JSON decode, row interpretation. -/
def processResp (targetURL : String) (latest : Bool) (st : Nat) (body : Body) :
    ProcessResult :=
  if st ≠ 200 then
    { url := targetURL, status := "error", error := some (.httpStatusErr st) }
  else
    match body.decode with
    | .eof => { url := targetURL, status := "not found" }
    | .fail msg decodedRows =>
      -- Go: `if err == io.EOF || (len(cdxResponse) == 0)`; err ≠ io.EOF here
      if decodedRows.length = 0 then
        { url := targetURL, status := "not found" }
      else
        { url := targetURL, status := "error", error := some (.decodeErr msg) }
    | .ok rows =>
      if 1 < rows.length then
        processSnapshots { url := targetURL } latest (rows.drop 1)
      else if rows.length = 1 ∧ 0 < (rows.headD []).length then
        { url := targetURL, status := "not found" }
      else
        processSnapshots { url := targetURL } latest []

/-- Result of a fetch together with its event trace. -/
structure FetchOutput where
  result : ProcessResult
  trace : List Event
deriving DecidableEq, Repr

/-- `fetchURLData` (part_001 lines 16-170): run the attempt loop, then
the `resp == nil` defensive check and response processing. -/
def fetchURLData (env : Nat → AttemptResult) (targetURL : String) (latest : Bool)
    (retryAttempts retryDelayMs : Nat) : FetchOutput :=
  match fetchLoop env targetURL retryAttempts retryDelayMs 0 (retryAttempts + 1)
      none none with
  | .ret r t => ⟨r, t⟩
  | .done respOpt lastErr t =>
    match respOpt with
    | none =>
      -- "This can happen if all retries fail with a network error."
      let le := lastErr.getD .unknownNoResponse
      ⟨{ url := targetURL, status := "error",
         error := some (.noResponseErr le) }, t⟩
    | some (st, body) => ⟨processResp targetURL latest st body, t⟩

/-- `worker` (part_000): drain the job channel, one fetch per job, one
published result per fetch.  The politeness delay does not affect
outcomes and is not tracked here. -/
def worker (envOf : String → Nat → AttemptResult) (latest : Bool)
    (retryAttempts retryDelayMs : Nat) (urls : List String) : List ProcessResult :=
  urls.map fun targetURL =>
    (fetchURLData (envOf targetURL) targetURL latest retryAttempts retryDelayMs).result

/-- Classification used in the retry branch of the attempt loop:
attempts the loop retries (transport failure, HTTP 429, HTTP 5xx, or a
body containing the rate-limit marker). -/
def attemptRetryable : AttemptResult → Bool
  | .netErr _ => true
  | .readErr _ => false
  | .resp st body =>
    (st == 429) || (decide (500 ≤ st) && decide (st < 600)) || body.hasRateLimitMsg

/-- The terminal error `fetchURLData` produces when attempt
`retryAttempts` is still retryable: the last observed cause wrapped
with the retry count. -/
def finalRetryError (a : AttemptResult) (retryAttempts : Nat) : Option GoErr :=
  match a with
  | .netErr msg => some (.fetchAfterRetries retryAttempts (.netError msg))
  | .readErr _ => none
  | .resp st body =>
    if (st == 429) || body.hasRateLimitMsg then
      some (.afterRetries (.rateLimitErr st) retryAttempts)
    else if decide (500 ≤ st) && decide (st < 600) then
      some (.afterRetries (.serverErr st) retryAttempts)
    else
      none

/-- The event trace of a run that performs attempts
`start, start+1, ..., start+n-1`: each attempt is one request, and each
attempt `k ≥ 1` is preceded by exactly one sleep of
`retryDelayMs * 2^(k-1)` milliseconds. -/
def expectedTrace (retryDelayMs start : Nat) : Nat → List Event
  | 0 => []
  | n + 1 =>
    (if 0 < start then
      [.sleep (retryDelayMs * 2 ^ (start - 1)), .request]
     else
      [.request]) ++ expectedTrace retryDelayMs (start + 1) n

example :
    (fetchURLData (fun _ => .resp 200 ⟨false, .eof⟩) "u" false 3 5000).result.status
      = "not found" := by decide

example :
    requestCount (fetchURLData (fun _ => .resp 429 ⟨false, .eof⟩) "u" false 3 5000).trace
      = 4 := by decide

example :
    (fetchURLData
      (fun _ => .resp 200 ⟨false,
        .ok [[.str "urlkey", .str "timestamp", .str "original"],
             [.str "k", .str "20200101000000", .str "http://example.com"]]⟩)
      "u" false 3 5000).result.oldestURL
      = "http://web.archive.org/web/20200101000000/http://example.com" := by decide

lemma fetchLoop_zero (env : Nat → AttemptResult) (u : String) (rA d attempt : Nat)
    (resp : Option (Nat × Body)) (le : Option GoErr) :
    fetchLoop env u rA d attempt 0 resp le = .done resp le [] := rfl

lemma withTrace_ret_iff (pre : List Event) (x : LoopRes) (r : ProcessResult)
    (t : List Event) :
    withTrace pre x = .ret r t ↔ ∃ t', x = .ret r t' ∧ t = pre ++ t' := by
  cases x with
  | ret r' t' => simp only [withTrace, LoopRes.ret.injEq]; aesop
  | done a b t' => simp [withTrace]

lemma withTrace_done_iff (pre : List Event) (x : LoopRes) (resp : Option (Nat × Body))
    (le : Option GoErr) (t : List Event) :
    withTrace pre x = .done resp le t ↔ ∃ t', x = .done resp le t' ∧ t = pre ++ t' := by
  cases x with
  | ret r' t' => simp [withTrace]
  | done a b t' => simp only [withTrace, LoopRes.done.injEq]; aesop

/-- The shapes an error carried by an early `return` inside the attempt
loop can have. -/
def loopRetErrOk : Option GoErr → Bool
  | some (.fetchAfterRetries _ (.netError _)) => true
  | some (.readBodyErr _) => true
  | some (.afterRetries (.rateLimitErr _) _) => true
  | some (.afterRetries (.serverErr _) _) => true
  | _ => false

/-- Every early `return` inside the attempt loop carries `Status =
"error"`, zero snapshots, no resolved URL, and one of the loop's error
shapes. -/
lemma fetchLoop_ret_shape (env : Nat → AttemptResult) (u : String) (rA d : Nat) :
    ∀ fuel attempt resp le r t,
      fetchLoop env u rA d attempt fuel resp le = .ret r t →
      r.url = u ∧ r.status = "error" ∧ r.snapshotCount = 0 ∧ r.oldestURL = "" ∧
        loopRetErrOk r.error = true := by
  intro fuel
  induction fuel with
  | zero =>
    intro attempt resp le r t h
    simp [fetchLoop] at h
  | succ n ih =>
    intro attempt resp le r t h
    simp only [fetchLoop] at h
    cases henv : env attempt with
    | netErr msg =>
      simp only [henv] at h
      by_cases hlt : attempt < rA
      · rw [if_pos hlt, withTrace_ret_iff] at h
        obtain ⟨t', h', rfl⟩ := h
        exact ih _ _ _ _ _ h'
      · rw [if_neg hlt] at h
        simp only [LoopRes.ret.injEq] at h
        obtain ⟨rfl, rfl⟩ := h
        simp [loopRetErrOk]
    | readErr msg =>
      simp only [henv, LoopRes.ret.injEq] at h
      obtain ⟨rfl, rfl⟩ := h
      simp [loopRetErrOk]
    | resp st body =>
      simp only [henv] at h
      cases hcond : ((st == 429) || (decide (500 ≤ st) && decide (st < 600))
          || body.hasRateLimitMsg) with
      | false => simp [hcond] at h
      | true =>
        simp only [hcond, if_true] at h
        by_cases hlt : attempt < rA
        · rw [if_pos hlt, withTrace_ret_iff] at h
          obtain ⟨t', h', rfl⟩ := h
          exact ih _ _ _ _ _ h'
        · rw [if_neg hlt] at h
          simp only [LoopRes.ret.injEq] at h
          obtain ⟨rfl, rfl⟩ := h
          by_cases h429 : ((st == 429) || body.hasRateLimitMsg) = true
          · simp [h429, loopRetErrOk]
          · simp [h429, loopRetErrOk]

lemma trace_withTrace (pre : List Event) (x : LoopRes) :
    (withTrace pre x).trace = pre ++ x.trace := by
  cases x <;> rfl

/-- When the attempt loop reaches the code after the loop starting from a
state with fuel left, it got there by `break`, so the `resp` variable
holds a response, never nil. -/
lemma fetchLoop_done_resp_some (env : Nat → AttemptResult) (u : String) (rA d : Nat) :
    ∀ fuel attempt resp le, 0 < fuel → attempt + fuel = rA + 1 →
      ∀ ro le' t, fetchLoop env u rA d attempt fuel resp le = .done ro le' t →
        ∃ st body, ro = some (st, body) := by
  intro fuel
  induction fuel with
  | zero =>
    intro attempt resp le hf
    exact absurd hf (lt_irrefl 0)
  | succ n ih =>
    intro attempt resp le _ hinv ro le' t h
    simp only [fetchLoop] at h
    cases henv : env attempt with
    | netErr msg =>
      simp only [henv] at h
      by_cases hlt : attempt < rA
      · rw [if_pos hlt, withTrace_done_iff] at h
        obtain ⟨t', h', rfl⟩ := h
        exact ih (attempt + 1) none _ (by omega) (by omega) _ _ _ h'
      · rw [if_neg hlt] at h
        exact LoopRes.noConfusion h
    | readErr msg =>
      simp only [henv] at h
      exact LoopRes.noConfusion h
    | resp st body =>
      simp only [henv] at h
      cases hcond : ((st == 429) || (decide (500 ≤ st) && decide (st < 600))
          || body.hasRateLimitMsg) with
      | true =>
        simp only [hcond, if_true] at h
        by_cases hlt : attempt < rA
        · rw [if_pos hlt, withTrace_done_iff] at h
          obtain ⟨t', h', rfl⟩ := h
          exact ih (attempt + 1) (some (st, body)) _ (by omega) (by omega) _ _ _ h'
        · rw [if_neg hlt] at h
          exact LoopRes.noConfusion h
      | false =>
        simp only [hcond, Bool.false_eq_true, if_false, LoopRes.done.injEq] at h
        exact ⟨st, body, h.1.symm⟩

/-- The trace of any loop run starting at `attempt` with fuel left is
`expectedTrace` for the number `n` of attempts actually performed. -/
lemma fetchLoop_trace_shape (env : Nat → AttemptResult) (u : String) (rA d : Nat) :
    ∀ fuel attempt resp le, 0 < fuel →
      ∃ n, 1 ≤ n ∧ n ≤ fuel ∧
        (fetchLoop env u rA d attempt fuel resp le).trace = expectedTrace d attempt n := by
  intro fuel
  induction fuel with
  | zero =>
    intro attempt resp le hf
    exact absurd hf (lt_irrefl 0)
  | succ m ih =>
    intro attempt resp le _
    simp only [fetchLoop]
    cases henv : env attempt with
    | netErr msg =>
      simp only [henv]
      by_cases hlt : attempt < rA
      · rw [if_pos hlt]
        rcases Nat.eq_zero_or_pos m with hm | hm
        · subst hm
          exact ⟨1, le_refl 1, by omega,
            by rw [trace_withTrace]; simp [fetchLoop_zero, LoopRes.trace, expectedTrace]⟩
        · obtain ⟨n, h1, h2, h3⟩ := ih (attempt + 1) none (some (.netError msg)) hm
          exact ⟨n + 1, by omega, by omega,
            by rw [trace_withTrace, h3]; simp [expectedTrace]⟩
      · rw [if_neg hlt]
        exact ⟨1, le_refl 1, by omega, by simp [LoopRes.trace, expectedTrace]⟩
    | readErr msg =>
      simp only [henv]
      exact ⟨1, le_refl 1, by omega, by simp [LoopRes.trace, expectedTrace]⟩
    | resp st body =>
      simp only [henv]
      cases hcond : ((st == 429) || (decide (500 ≤ st) && decide (st < 600))
          || body.hasRateLimitMsg) with
      | true =>
        simp only [hcond, if_true]
        by_cases hlt : attempt < rA
        · rw [if_pos hlt]
          rcases Nat.eq_zero_or_pos m with hm | hm
          · subst hm
            exact ⟨1, le_refl 1, by omega,
              by rw [trace_withTrace]; simp [fetchLoop_zero, LoopRes.trace, expectedTrace]⟩
          · obtain ⟨n, h1, h2, h3⟩ := ih (attempt + 1) (some (st, body)) _ hm
            exact ⟨n + 1, by omega, by omega,
              by rw [trace_withTrace, h3]; simp [expectedTrace]⟩
        · rw [if_neg hlt]
          exact ⟨1, le_refl 1, by omega, by simp [LoopRes.trace, expectedTrace]⟩
      | false =>
        simp only [hcond, Bool.false_eq_true, if_false]
        exact ⟨1, le_refl 1, by omega, by simp [LoopRes.trace, expectedTrace]⟩

/-- The trace of a fetch is the trace of its attempt loop. -/
lemma fetchURLData_trace (env : Nat → AttemptResult) (u : String) (latest : Bool)
    (rA d : Nat) :
    (fetchURLData env u latest rA d).trace =
      (fetchLoop env u rA d 0 (rA + 1) none none).trace := by
  unfold fetchURLData
  cases h : fetchLoop env u rA d 0 (rA + 1) none none with
  | ret r t => simp [LoopRes.trace]
  | done ro le t =>
    cases ro with
    | none => simp [LoopRes.trace]
    | some p => cases p with | mk st body => simp [LoopRes.trace]

/-- Link construction only writes `OldestURL`; status, count and error
pass through. -/
lemma finishEntry_preserves (r : ProcessResult) (e : SnapshotEntry) :
    (finishEntry r e).url = r.url ∧ (finishEntry r e).status = r.status ∧
      (finishEntry r e).snapshotCount = r.snapshotCount ∧
      (finishEntry r e).error = r.error := by
  unfold finishEntry
  split
  · split <;> simp
  · simp

/-- Characterization of snapshot processing on an input result with Go
zero values in the outcome fields. -/
lemma processSnapshots_shape (u : String) (latest : Bool)
    (snapshots : List SnapshotEntry) :
    (processSnapshots { url := u } latest snapshots).url = u ∧
      (snapshots = [] →
        processSnapshots { url := u } latest snapshots =
          { url := u, status := "not found" }) ∧
      (snapshots ≠ [] →
        (processSnapshots { url := u } latest snapshots).status = "found" ∧
          (processSnapshots { url := u } latest snapshots).snapshotCount
            = snapshots.length ∧
          (processSnapshots { url := u } latest snapshots).error = none) := by
  unfold processSnapshots
  rcases snapshots with _ | ⟨e, es⟩
  · simp
  · have hpos : 0 < (e :: es).length := Nat.zero_lt_succ _
    rw [if_pos hpos]
    by_cases hl : latest = true
    · rw [if_pos ⟨hl, hpos⟩]
      obtain ⟨h1, h2, h3, h4⟩ := finishEntry_preserves
        { url := u, status := "found", snapshotCount := (e :: es).length }
        ((e :: es).getLastD [])
      exact ⟨h1, by simp, fun _ => ⟨h2, h3, h4⟩⟩
    · rw [if_neg (fun hc => hl hc.1), if_pos hpos]
      obtain ⟨h1, h2, h3, h4⟩ := finishEntry_preserves
        { url := u, status := "found", snapshotCount := (e :: es).length }
        ((e :: es).headD [])
      exact ⟨h1, by simp, fun _ => ⟨h2, h3, h4⟩⟩

/-- Errors reachable in response processing. -/
def processErrOk : Option GoErr → Bool
  | none => true
  | some (.httpStatusErr _) => true
  | some (.decodeErr _) => true
  | _ => false

/-- Characterization of response processing: valid status, snapshot
count positive exactly for "found", error present exactly for "error",
and only the two processing error shapes. -/
lemma processResp_shape (u : String) (latest : Bool) (st : Nat) (body : Body) :
    (processResp u latest st body).url = u ∧
      ((processResp u latest st body).status = "found" ∨
        (processResp u latest st body).status = "not found" ∨
        (processResp u latest st body).status = "error") ∧
      (0 < (processResp u latest st body).snapshotCount ↔
        (processResp u latest st body).status = "found") ∧
      ((processResp u latest st body).error.isSome = true ↔
        (processResp u latest st body).status = "error") ∧
      processErrOk (processResp u latest st body).error = true := by
  unfold processResp
  by_cases hst : st = 200
  · subst hst
    rw [if_neg (by simp)]
    split
    · refine ⟨rfl, ?_, ?_, ?_, ?_⟩ <;> simp [processErrOk]
    · split
      · refine ⟨rfl, ?_, ?_, ?_, ?_⟩ <;> simp [processErrOk]
      · refine ⟨rfl, ?_, ?_, ?_, ?_⟩ <;> simp [processErrOk]
    · rename_i rows hrows
      split
      · rename_i h1
        have hne : rows.drop 1 ≠ [] := by
          intro hnil
          have := List.length_drop 1 rows
          rw [hnil] at this
          simp at this
          omega
        obtain ⟨hu, _, hcons⟩ := processSnapshots_shape u latest (rows.drop 1)
        obtain ⟨hs, hc, he⟩ := hcons hne
        have hclen : 0 < (rows.drop 1).length := by
          rw [List.length_drop]
          omega
        refine ⟨hu, Or.inl hs, ?_, ?_, ?_⟩
        · rw [hc, hs]
          exact iff_of_true hclen rfl
        · rw [he, hs]
          simp
        · rw [he]
          rfl
      · split
        · refine ⟨rfl, ?_, ?_, ?_, ?_⟩ <;> simp [processErrOk]
        · obtain ⟨hu, hnil, _⟩ := processSnapshots_shape u latest []
          rw [hnil rfl]
          refine ⟨rfl, ?_, ?_, ?_, ?_⟩ <;> simp [processErrOk]
  · rw [if_pos hst]
    refine ⟨rfl, Or.inr (Or.inr rfl), by simp, by simp, rfl⟩

/-- Any fetch result is either an early-return error from the attempt
loop, or the processing of a received response. -/
lemma fetchURLData_result_cases (env : Nat → AttemptResult) (u : String)
    (latest : Bool) (rA d : Nat) :
    (∃ r t, fetchLoop env u rA d 0 (rA + 1) none none = .ret r t ∧
      (fetchURLData env u latest rA d).result = r) ∨
    (∃ st body, (fetchURLData env u latest rA d).result
        = processResp u latest st body) := by
  unfold fetchURLData
  cases h : fetchLoop env u rA d 0 (rA + 1) none none with
  | ret r t => exact Or.inl ⟨r, t, rfl, rfl⟩
  | done ro le t =>
    obtain ⟨st, body, hro⟩ := fetchLoop_done_resp_some env u rA d (rA + 1) 0 none none
      (Nat.succ_pos rA) (by omega) ro le t h
    subst hro
    exact Or.inr ⟨st, body, rfl⟩

/-- Every fetch result carries one of the three statuses. -/
lemma fetchURLData_status_valid (env : Nat → AttemptResult) (u : String)
    (latest : Bool) (rA d : Nat) :
    (fetchURLData env u latest rA d).result.status = "found" ∨
      (fetchURLData env u latest rA d).result.status = "not found" ∨
      (fetchURLData env u latest rA d).result.status = "error" := by
  rcases fetchURLData_result_cases env u latest rA d with
    ⟨r, t, hloop, hres⟩ | ⟨st, body, hres⟩
  · rw [hres]
    obtain ⟨_, hs, _, _, _⟩ := fetchLoop_ret_shape env u rA d _ _ _ _ _ _ hloop
    exact Or.inr (Or.inr hs)
  · rw [hres]
    exact (processResp_shape u latest st body).2.1

lemma requestCount_append (a b : List Event) :
    requestCount (a ++ b) = requestCount a + requestCount b := by
  simp [requestCount, List.countP_append]

/-- A run of `n` attempts makes exactly `n` upstream requests. -/
lemma requestCount_expectedTrace (d : Nat) :
    ∀ n start, requestCount (expectedTrace d start n) = n := by
  intro n
  induction n with
  | zero => intro start; rfl
  | succ m ih =>
    intro start
    unfold expectedTrace
    rw [requestCount_append, ih]
    by_cases h : 0 < start <;>
      simp [h, requestCount, List.countP_cons, Event.isRequest] <;> omega

/-- If attempts `attempt..k-1` are all retryable and attempt `k` yields
a non-retryable response, the loop breaks at attempt `k` carrying that
response, having performed exactly attempts `attempt..k`. -/
lemma fetchLoop_break (env : Nat → AttemptResult) (u : String) (rA d : Nat) :
    ∀ fuel attempt (resp : Option (Nat × Body)) (le : Option GoErr) k st body,
      attempt + fuel = rA + 1 → attempt ≤ k → k ≤ rA →
      (∀ j, attempt ≤ j → j < k → attemptRetryable (env j) = true) →
      env k = .resp st body → attemptRetryable (.resp st body) = false →
      ∃ le', fetchLoop env u rA d attempt fuel resp le =
        .done (some (st, body)) le' (expectedTrace d attempt (k - attempt + 1)) := by
  intro fuel
  induction fuel with
  | zero =>
    intro attempt resp le k st body hinv hak hkr _ _ _
    omega
  | succ m ih =>
    intro attempt resp le k st body hinv hak hkr hprev henvk hnr
    simp only [fetchLoop]
    by_cases hek : attempt = k
    · subst hek
      simp only [henvk]
      simp only [attemptRetryable] at hnr
      simp only [hnr, Bool.false_eq_true, if_false]
      refine ⟨le, ?_⟩
      have : attempt - attempt + 1 = 1 := by omega
      rw [this]
      simp [expectedTrace]
    · have hak' : attempt < k := lt_of_le_of_ne hak hek
      have hr : attemptRetryable (env attempt) = true := hprev attempt le_rfl hak'
      have hlt : attempt < rA := lt_of_lt_of_le hak' hkr
      cases henv : env attempt with
      | netErr msg =>
        simp only [henv]
        rw [if_pos hlt]
        obtain ⟨le', hrec⟩ := ih (attempt + 1) none (some (.netError msg)) k st body
          (by omega) (by omega) hkr (fun j hj1 hj2 => hprev j (by omega) hj2) henvk hnr
        refine ⟨le', ?_⟩
        rw [hrec]
        have harith : k - attempt + 1 = (k - (attempt + 1) + 1) + 1 := by omega
        rw [harith]
        simp [withTrace, expectedTrace]
      | readErr msg =>
        rw [henv] at hr
        simp [attemptRetryable] at hr
      | resp st' body' =>
        simp only [henv]
        have hc : ((st' == 429) || (decide (500 ≤ st') && decide (st' < 600))
            || body'.hasRateLimitMsg) = true := by
          rw [henv] at hr
          simpa [attemptRetryable] using hr
        simp only [hc, if_true]
        rw [if_pos hlt]
        obtain ⟨le', hrec⟩ := ih (attempt + 1) (some (st', body'))
          (some (if (st' == 429) || body'.hasRateLimitMsg then .rateLimitErr st'
            else .serverErr st')) k st body
          (by omega) (by omega) hkr (fun j hj1 hj2 => hprev j (by omega) hj2) henvk hnr
        refine ⟨le', ?_⟩
        rw [hrec]
        have harith : k - attempt + 1 = (k - (attempt + 1) + 1) + 1 := by omega
        rw [harith]
        simp [withTrace, expectedTrace]

/-- If every attempt up to `retryAttempts` is retryable, the loop
performs them all and returns the terminal retry error wrapping the last
observed cause and the retry count. -/
lemma fetchLoop_all_retryable (env : Nat → AttemptResult) (u : String) (rA d : Nat) :
    ∀ fuel attempt (resp : Option (Nat × Body)) (le : Option GoErr),
      attempt + fuel = rA + 1 → attempt ≤ rA →
      (∀ k, attempt ≤ k → k ≤ rA → attemptRetryable (env k) = true) →
      fetchLoop env u rA d attempt fuel resp le =
        .ret { url := u, status := "error", error := finalRetryError (env rA) rA }
          (expectedTrace d attempt fuel) := by
  intro fuel
  induction fuel with
  | zero =>
    intro attempt resp le hinv hle _
    omega
  | succ m ih =>
    intro attempt resp le hinv hle hall
    simp only [fetchLoop]
    have hr := hall attempt le_rfl hle
    by_cases hlt : attempt < rA
    · cases henv : env attempt with
      | netErr msg =>
        simp only [henv]
        rw [if_pos hlt,
          ih (attempt + 1) none (some (.netError msg)) (by omega) (by omega)
            (fun k h1 h2 => hall k (by omega) h2)]
        simp [withTrace, expectedTrace]
      | readErr msg =>
        rw [henv] at hr
        simp [attemptRetryable] at hr
      | resp st body =>
        simp only [henv]
        have hc : ((st == 429) || (decide (500 ≤ st) && decide (st < 600))
            || body.hasRateLimitMsg) = true := by
          rw [henv] at hr
          simpa [attemptRetryable] using hr
        simp only [hc, if_true]
        rw [if_pos hlt,
          ih (attempt + 1) (some (st, body))
            (some (if (st == 429) || body.hasRateLimitMsg then .rateLimitErr st
              else .serverErr st)) (by omega) (by omega)
            (fun k h1 h2 => hall k (by omega) h2)]
        simp [withTrace, expectedTrace]
    · have hA : attempt = rA := by omega
      have hm : m = 0 := by omega
      subst hm
      cases henv : env attempt with
      | netErr msg =>
        simp only [henv]
        rw [if_neg hlt, ← hA, henv]
        simp [finalRetryError, expectedTrace]
      | readErr msg =>
        rw [henv] at hr
        simp [attemptRetryable] at hr
      | resp st body =>
        simp only [henv]
        have hc : ((st == 429) || (decide (500 ≤ st) && decide (st < 600))
            || body.hasRateLimitMsg) = true := by
          rw [henv] at hr
          simpa [attemptRetryable] using hr
        simp only [hc, if_true]
        rw [if_neg hlt, ← hA, henv]
        by_cases h429 : ((st == 429) || body.hasRateLimitMsg) = true
        · simp [finalRetryError, h429, expectedTrace]
        · have h5 : (decide (500 ≤ st) && decide (st < 600)) = true := by
            rcases Bool.or_eq_true_iff.mp hc with h | h
            · rcases Bool.or_eq_true_iff.mp h with h' | h'
              · exact absurd (Bool.or_eq_true_iff.mpr (Or.inl h')) h429
              · exact h'
            · exact absurd (Bool.or_eq_true_iff.mpr (Or.inr h)) h429
          simp [finalRetryError, h429, h5, expectedTrace]

lemma fetchURLData_count_iff (env : Nat → AttemptResult) (u : String)
    (latest : Bool) (rA d : Nat) :
    (0 < (fetchURLData env u latest rA d).result.snapshotCount ↔
      (fetchURLData env u latest rA d).result.status = "found") := by
  rcases fetchURLData_result_cases env u latest rA d with
    ⟨r, t, hloop, hres⟩ | ⟨st, body, hres⟩
  · rw [hres]
    obtain ⟨_, hs, hc, _, _⟩ := fetchLoop_ret_shape env u rA d _ _ _ _ _ _ hloop
    rw [hs, hc]
    simp
  · rw [hres]
    exact (processResp_shape u latest st body).2.2.1

lemma fetchURLData_error_iff (env : Nat → AttemptResult) (u : String)
    (latest : Bool) (rA d : Nat) :
    ((fetchURLData env u latest rA d).result.error.isSome = true ↔
      (fetchURLData env u latest rA d).result.status = "error") := by
  rcases fetchURLData_result_cases env u latest rA d with
    ⟨r, t, hloop, hres⟩ | ⟨st, body, hres⟩
  · rw [hres]
    obtain ⟨_, hs, _, _, herr⟩ := fetchLoop_ret_shape env u rA d _ _ _ _ _ _ hloop
    rw [hs]
    refine iff_of_true ?_ rfl
    cases he : r.error with
    | none => rw [he] at herr; simp [loopRetErrOk] at herr
    | some e => simp
  · rw [hres]
    exact (processResp_shape u latest st body).2.2.2.1

/-- C2: for every environment, target URL, mode, retryAttempts and
retryDelayMs, the ProcessResult returned by fetchURLData satisfies
`SnapshotCount > 0` if and only if `Status = "found"`; hence
`SnapshotCount = 0` in the "not found" and "error" cases. -/
theorem snapshotCount_pos_iff_found (env : Nat → AttemptResult) (u : String)
    (latest : Bool) (rA d : Nat) :
    (0 < (fetchURLData env u latest rA d).result.snapshotCount ↔
      (fetchURLData env u latest rA d).result.status = "found") :=
  fetchURLData_count_iff env u latest rA d

/-- C3: for every input, the ProcessResult returned by fetchURLData
carries a non-nil Error field if and only if its Status is "error". -/
theorem error_present_iff_status_error (env : Nat → AttemptResult) (u : String)
    (latest : Bool) (rA d : Nat) :
    ((fetchURLData env u latest rA d).result.error.isSome = true ↔
      (fetchURLData env u latest rA d).result.status = "error") :=
  fetchURLData_error_iff env u latest rA d

/-- C5: the side-effect trace of any fetch is, for the number `n` of
attempts actually performed (`1 ≤ n ≤ retryAttempts + 1`), exactly one
HTTP request per attempt, with attempt 0 issued with no preceding delay
and every retry attempt `k ≥ 1` preceded by exactly one sleep of
`retryDelayMs * 2^(k-1)` milliseconds; the loop performs no other
sleep. -/
theorem backoff_delay_exponential (env : Nat → AttemptResult) (u : String)
    (latest : Bool) (rA d : Nat) :
    ∃ n, 1 ≤ n ∧ n ≤ rA + 1 ∧
      (fetchURLData env u latest rA d).trace = expectedTrace d 0 n ∧
      requestCount (fetchURLData env u latest rA d).trace = n := by
  rw [fetchURLData_trace]
  obtain ⟨n, h1, h2, h3⟩ :=
    fetchLoop_trace_shape env u rA d (rA + 1) 0 none none (Nat.succ_pos rA)
  exact ⟨n, h1, h2, h3, by rw [h3]; exact requestCount_expectedTrace d n 0⟩

/-- Did the attempt loop end with a nil `resp` (the state the post-loop
defensive branch guards against)? -/
def isNilRespDone : LoopRes → Bool
  | .done none _ _ => true
  | _ => false

/-- Is this the error built by the post-loop `resp == nil` defensive
branch? -/
def isNoRespErr : Option GoErr → Bool
  | some (.noResponseErr _) => true
  | _ => false

/-- Is this the marker left by the defensive "not found" assignment
inside the `snapshotCount > 0` block (a "not found" status with a
positive snapshot count)? -/
def defensiveNotFound (r : ProcessResult) : Bool :=
  decide (r.status = "not found") && decide (0 < r.snapshotCount)

lemma loopRetErrOk_no_noResp (o : Option GoErr) (h : loopRetErrOk o = true) :
    isNoRespErr o = false := by
  rcases o with _ | e
  · rfl
  · cases e <;> simp_all [loopRetErrOk, isNoRespErr]

lemma processErrOk_no_noResp (o : Option GoErr) (h : processErrOk o = true) :
    isNoRespErr o = false := by
  rcases o with _ | e
  · rfl
  · cases e <;> simp_all [processErrOk, isNoRespErr]

/-- C10: both defensive branches of fetchURLData are unreachable: the
attempt loop never hands the post-loop code a nil response, the
"failed to get a response after all retries" error never appears in a
result, and no result carries the defensive "not found"-with-positive-
count combination. -/
theorem defensive_branches_unreachable (env : Nat → AttemptResult) (u : String)
    (latest : Bool) (rA d : Nat) :
    isNilRespDone (fetchLoop env u rA d 0 (rA + 1) none none) = false ∧
      isNoRespErr (fetchURLData env u latest rA d).result.error = false ∧
      defensiveNotFound (fetchURLData env u latest rA d).result = false := by
  refine ⟨?_, ?_, ?_⟩
  · cases h : fetchLoop env u rA d 0 (rA + 1) none none with
    | ret r t => rfl
    | done ro le t =>
      obtain ⟨st, body, hro⟩ := fetchLoop_done_resp_some env u rA d (rA + 1) 0
        none none (Nat.succ_pos rA) (by omega) ro le t h
      subst hro
      rfl
  · rcases fetchURLData_result_cases env u latest rA d with
      ⟨r, t, hloop, hres⟩ | ⟨st, body, hres⟩
    · rw [hres]
      obtain ⟨_, _, _, _, herr⟩ := fetchLoop_ret_shape env u rA d _ _ _ _ _ _ hloop
      exact loopRetErrOk_no_noResp _ herr
    · rw [hres]
      exact processErrOk_no_noResp _ (processResp_shape u latest st body).2.2.2.2
  · by_cases hs : (fetchURLData env u latest rA d).result.status = "not found"
    · have h0 : ¬ 0 < (fetchURLData env u latest rA d).result.snapshotCount := by
        intro hpos
        have hf := (fetchURLData_count_iff env u latest rA d).mp hpos
        rw [hs] at hf
        exact absurd hf (by decide)
      simp [defensiveNotFound, h0]
    · simp [defensiveNotFound, hs]

/-- The cause recorded in `lastErr` for a retryable attempt outcome
(`netErr`, 429, rate-limit marker, or 5xx). -/
def retryCause : AttemptResult → Option GoErr
  | .netErr msg => some (.netError msg)
  | .readErr _ => none
  | .resp st body =>
    if (st == 429) || body.hasRateLimitMsg then some (.rateLimitErr st)
    else if decide (500 ≤ st) && decide (st < 600) then some (.serverErr st)
    else none

/-- C4: if every attempt `0..r` yields a retryable classification,
fetchURLData issues exactly `r + 1` upstream HTTP requests and returns
Status = "error" with an Error wrapping the last observed cause and the
retry count `r`. -/
theorem all_attempts_retryable_error_after_r_plus_1_calls
    (env : Nat → AttemptResult) (u : String) (latest : Bool) (rA d : Nat)
    (hall : ∀ k, k ≤ rA → attemptRetryable (env k) = true) :
    requestCount (fetchURLData env u latest rA d).trace = rA + 1 ∧
      (fetchURLData env u latest rA d).result.status = "error" ∧
      ∃ cause, retryCause (env rA) = some cause ∧
        ((fetchURLData env u latest rA d).result.error
            = some (.fetchAfterRetries rA cause) ∨
          (fetchURLData env u latest rA d).result.error
            = some (.afterRetries cause rA)) := by
  have hloop := fetchLoop_all_retryable env u rA d (rA + 1) 0 none none
    (by omega) (Nat.zero_le rA) (fun k _ hk => hall k hk)
  have hfetch : fetchURLData env u latest rA d =
      ⟨{ url := u, status := "error", error := finalRetryError (env rA) rA },
        expectedTrace d 0 (rA + 1)⟩ := by
    unfold fetchURLData
    rw [hloop]
  rw [hfetch]
  refine ⟨requestCount_expectedTrace d (rA + 1) 0, rfl, ?_⟩
  have hrA := hall rA le_rfl
  cases henv : env rA with
  | netErr msg =>
    exact ⟨.netError msg, by simp [retryCause, henv],
      Or.inl (by simp [finalRetryError, henv])⟩
  | readErr msg =>
    rw [henv] at hrA
    simp [attemptRetryable] at hrA
  | resp st body =>
    cases h429 : ((st == 429) || body.hasRateLimitMsg) with
    | true =>
      exact ⟨.rateLimitErr st, by simp [retryCause, henv, h429],
        Or.inr (by simp [finalRetryError, henv, h429])⟩
    | false =>
      have h5 : (decide (500 ≤ st) && decide (st < 600)) = true := by
        rw [henv] at hrA
        simp only [attemptRetryable] at hrA
        rcases Bool.or_eq_true_iff.mp hrA with h | h
        · rcases Bool.or_eq_true_iff.mp h with h' | h'
          · rw [h'] at h429
            simp at h429
          · exact h'
        · rw [h] at h429
          simp at h429
      exact ⟨.serverErr st, by simp [retryCause, henv, h429, h5],
        Or.inr (by simp [finalRetryError, henv, h429, h5])⟩

/-- Witness for C4 at a concrete input: every attempt answers HTTP 429,
retryAttempts = 3, so 4 calls and a rate-limit error wrapped with retry
count 3. -/
theorem all_attempts_retryable_error_witness :
    requestCount (fetchURLData (fun _ => .resp 429 ⟨false, .eof⟩) "u" false 3 5000).trace
        = 3 + 1 ∧
      (fetchURLData (fun _ => .resp 429 ⟨false, .eof⟩) "u" false 3 5000).result.status
        = "error" ∧
      ∃ cause, retryCause ((fun _ => AttemptResult.resp 429 ⟨false, .eof⟩) 3)
          = some cause ∧
        ((fetchURLData (fun _ => .resp 429 ⟨false, .eof⟩) "u" false 3 5000).result.error
            = some (.fetchAfterRetries 3 cause) ∨
          (fetchURLData (fun _ => .resp 429 ⟨false, .eof⟩) "u" false 3 5000).result.error
            = some (.afterRetries cause 3)) :=
  all_attempts_retryable_error_after_r_plus_1_calls
    (fun _ => .resp 429 ⟨false, .eof⟩) "u" false 3 5000 (fun _ _ => rfl)

/-- An environment in which every attempt answers HTTP 404 with a body
containing the archive's rate-limit message. -/
def env404marker : Nat → AttemptResult :=
  fun _ => .resp 404 ⟨true, .eof⟩

/-- C6 counterexample: a response whose HTTP status is neither 200 nor
429 nor 5xx (here 404) does NOT always end the job immediately — when
its body contains the rate-limit marker the loop retries, so with
retryAttempts = 1 two upstream requests are issued, not one. -/
theorem non_200_with_marker_is_retried :
    env404marker 0 = .resp 404 ⟨true, .eof⟩ ∧
      (404 ≠ 200 ∧ 404 ≠ 429 ∧ ¬(500 ≤ 404 ∧ 404 < 600)) ∧
      requestCount (fetchURLData env404marker "u" false 1 5000).trace = 2 := by
  refine ⟨rfl, by decide, by decide⟩

/-- C6 amended: whenever an attempt's response is non-retryable — HTTP
status not 429, not 5xx, and a body not containing the rate-limit
marker — fetchURLData issues no further upstream requests for that job
(exactly the attempts up to it, `k + 1` requests); if in addition the
status is not 200, it returns a terminal "error" Outcome immediately,
carrying the non-200 status error. -/
theorem nonretryable_response_stops_loop
    (env : Nat → AttemptResult) (u : String) (latest : Bool) (rA d k st : Nat)
    (body : Body)
    (hk : k ≤ rA)
    (hprev : ∀ j, j < k → attemptRetryable (env j) = true)
    (henvk : env k = .resp st body)
    (hnr : attemptRetryable (.resp st body) = false) :
    requestCount (fetchURLData env u latest rA d).trace = k + 1 ∧
      (st ≠ 200 →
        (fetchURLData env u latest rA d).result.status = "error" ∧
          (fetchURLData env u latest rA d).result.error
            = some (.httpStatusErr st)) := by
  obtain ⟨le', hloop⟩ := fetchLoop_break env u rA d (rA + 1) 0 none none k st body
    (by omega) (Nat.zero_le k) hk (fun j _ hj => hprev j hj) henvk hnr
  have hres : fetchURLData env u latest rA d =
      ⟨processResp u latest st body, expectedTrace d 0 (k - 0 + 1)⟩ := by
    unfold fetchURLData
    rw [hloop]
  rw [hres]
  constructor
  · simpa using requestCount_expectedTrace d (k - 0 + 1) 0
  · intro hst
    unfold processResp
    rw [if_pos hst]
    exact ⟨rfl, rfl⟩

/-- Witness for the amended C6 at a concrete input: attempt 0 answers a
plain 404 (no marker), so exactly one request is made and the job ends
in a terminal non-200 error. -/
theorem nonretryable_response_stops_loop_witness :
    requestCount (fetchURLData (fun _ => .resp 404 ⟨false, .eof⟩) "u" false 3 5000).trace
        = 0 + 1 ∧
      (404 ≠ 200 →
        (fetchURLData (fun _ => .resp 404 ⟨false, .eof⟩) "u" false 3 5000).result.status
            = "error" ∧
          (fetchURLData (fun _ => .resp 404 ⟨false, .eof⟩) "u" false 3 5000).result.error
            = some (.httpStatusErr 404)) :=
  nonretryable_response_stops_loop (fun _ => .resp 404 ⟨false, .eof⟩) "u" false 3 5000
    0 404 ⟨false, .eof⟩ (by decide) (fun j hj => absurd hj (Nat.not_lt_zero j))
    rfl (by decide)

/-- C7: for a 200 response without the rate-limit marker, no retry
occurs, and: an empty body (decode yields end-of-input), a decode error
leaving zero decoded rows, or a successful decode of zero rows all give
Status = "not found" with nil Error, while a decode error leaving at
least one decoded row gives Status = "error" with the decode error. -/
theorem decode_eof_or_zero_rows_not_found
    (env : Nat → AttemptResult) (u : String) (latest : Bool) (rA d : Nat)
    (body : Body)
    (h0 : env 0 = .resp 200 body) (hm : body.hasRateLimitMsg = false) :
    requestCount (fetchURLData env u latest rA d).trace = 1 ∧
      (body.decode = .eof →
        (fetchURLData env u latest rA d).result.status = "not found" ∧
          (fetchURLData env u latest rA d).result.error = none) ∧
      (∀ msg, body.decode = .fail msg [] →
        (fetchURLData env u latest rA d).result.status = "not found" ∧
          (fetchURLData env u latest rA d).result.error = none) ∧
      (body.decode = .ok [] →
        (fetchURLData env u latest rA d).result.status = "not found" ∧
          (fetchURLData env u latest rA d).result.error = none) ∧
      (∀ msg e es, body.decode = .fail msg (e :: es) →
        (fetchURLData env u latest rA d).result.status = "error" ∧
          (fetchURLData env u latest rA d).result.error
            = some (.decodeErr msg)) := by
  have hnr : attemptRetryable (.resp 200 body) = false := by
    simp [attemptRetryable, hm]
  obtain ⟨le', hloop⟩ := fetchLoop_break env u rA d (rA + 1) 0 none none 0 200 body
    (by omega) le_rfl (Nat.zero_le rA) (fun j _ hj => absurd hj (Nat.not_lt_zero j))
    h0 hnr
  have hres : fetchURLData env u latest rA d =
      ⟨processResp u latest 200 body, expectedTrace d 0 (0 - 0 + 1)⟩ := by
    unfold fetchURLData
    rw [hloop]
  rw [hres]
  refine ⟨requestCount_expectedTrace d (0 - 0 + 1) 0, ?_, ?_, ?_, ?_⟩
  · intro hdec
    unfold processResp
    rw [if_neg (by simp)]
    simp [hdec]
  · intro msg hdec
    unfold processResp
    rw [if_neg (by simp)]
    simp [hdec]
  · intro hdec
    unfold processResp
    rw [if_neg (by simp)]
    simp only [hdec]
    rw [if_neg (by simp), if_neg (by simp),
      (processSnapshots_shape u latest []).2.1 rfl]
    exact ⟨rfl, rfl⟩
  · intro msg e es hdec
    unfold processResp
    rw [if_neg (by simp)]
    simp [hdec]

/-- Witness for C7 at concrete inputs: a 200 response whose body fails
to decode with zero decoded rows yields "not found" with nil error and
a single request. -/
theorem decode_eof_or_zero_rows_not_found_witness :
    requestCount (fetchURLData (fun _ => .resp 200 ⟨false, .fail "bad" []⟩)
        "u" false 3 5000).trace = 1 ∧
      ((⟨false, .fail "bad" []⟩ : Body).decode = .eof →
        (fetchURLData (fun _ => .resp 200 ⟨false, .fail "bad" []⟩)
            "u" false 3 5000).result.status = "not found" ∧
          (fetchURLData (fun _ => .resp 200 ⟨false, .fail "bad" []⟩)
            "u" false 3 5000).result.error = none) ∧
      (∀ msg, (⟨false, .fail "bad" []⟩ : Body).decode = .fail msg [] →
        (fetchURLData (fun _ => .resp 200 ⟨false, .fail "bad" []⟩)
            "u" false 3 5000).result.status = "not found" ∧
          (fetchURLData (fun _ => .resp 200 ⟨false, .fail "bad" []⟩)
            "u" false 3 5000).result.error = none) ∧
      ((⟨false, .fail "bad" []⟩ : Body).decode = .ok [] →
        (fetchURLData (fun _ => .resp 200 ⟨false, .fail "bad" []⟩)
            "u" false 3 5000).result.status = "not found" ∧
          (fetchURLData (fun _ => .resp 200 ⟨false, .fail "bad" []⟩)
            "u" false 3 5000).result.error = none) ∧
      (∀ msg e es, (⟨false, .fail "bad" []⟩ : Body).decode = .fail msg (e :: es) →
        (fetchURLData (fun _ => .resp 200 ⟨false, .fail "bad" []⟩)
            "u" false 3 5000).result.status = "error" ∧
          (fetchURLData (fun _ => .resp 200 ⟨false, .fail "bad" []⟩)
            "u" false 3 5000).result.error = some (.decodeErr msg)) :=
  decode_eof_or_zero_rows_not_found (fun _ => .resp 200 ⟨false, .fail "bad" []⟩)
    "u" false 3 5000 ⟨false, .fail "bad" []⟩ rfl rfl

/-- With at least one snapshot, processing selects the last entry when
`latest` and the first otherwise, and finishes with link
construction over a "found" result. -/
lemma processSnapshots_resolved (u : String) (latest : Bool)
    (snapshots : List SnapshotEntry) (hne : snapshots ≠ []) :
    processSnapshots { url := u } latest snapshots =
      finishEntry { url := u, status := "found", snapshotCount := snapshots.length }
        (if latest then snapshots.getLastD [] else snapshots.headD []) := by
  unfold processSnapshots
  have hpos : 0 < snapshots.length := List.length_pos.mpr hne
  rw [if_pos hpos]
  by_cases hl : latest = true
  · rw [if_pos ⟨hl, hpos⟩]
    simp [hl]
  · rw [if_neg (fun hc => hl hc.1), if_pos hpos]
    simp [hl]

/-- With a 200 no-marker response decoding to a header row plus data
rows, the fetch result is the link construction over the chosen entry.
-/
lemma fetchURLData_found_entry (env : Nat → AttemptResult) (u : String)
    (latest : Bool) (rA d : Nat) (body : Body)
    (header : SnapshotEntry) (rows : List SnapshotEntry)
    (h0 : env 0 = .resp 200 body) (hm : body.hasRateLimitMsg = false)
    (hdec : body.decode = .ok (header :: rows)) (hrows : rows ≠ []) :
    (fetchURLData env u latest rA d).result =
      finishEntry { url := u, status := "found", snapshotCount := rows.length }
        (if latest then rows.getLastD [] else rows.headD []) := by
  have hnr : attemptRetryable (.resp 200 body) = false := by
    simp [attemptRetryable, hm]
  obtain ⟨le', hloop⟩ := fetchLoop_break env u rA d (rA + 1) 0 none none 0 200 body
    (by omega) le_rfl (Nat.zero_le rA) (fun j _ hj => absurd hj (Nat.not_lt_zero j))
    h0 hnr
  have hres : (fetchURLData env u latest rA d).result = processResp u latest 200 body := by
    unfold fetchURLData
    rw [hloop]
  rw [hres]
  unfold processResp
  rw [if_neg (by simp)]
  simp only [hdec]
  have hlen : 1 < (header :: rows).length := by
    have := List.length_pos.mpr hrows
    simp [List.length_cons]
    omega
  rw [if_pos hlen]
  have hdrop : (header :: rows).drop 1 = rows := rfl
  rw [hdrop, processSnapshots_resolved u latest rows hrows]

/-- C8: for a 200 no-marker body decoding to a header row plus `N ≥ 1`
data rows, the fetch returns Status = "found" with SnapshotCount = N and
builds ResolvedURL from positions 1 and 2 of the first data row when
`latest = false` and of the last data row when `latest = true`; a body
decoding to exactly one non-empty row (header only) yields "not found".
-/
theorem found_selects_entry_and_builds_url
    (env : Nat → AttemptResult) (u : String) (latest : Bool) (rA d : Nat)
    (body : Body) (header : SnapshotEntry) (rows : List SnapshotEntry)
    (ts orig : String)
    (h0 : env 0 = .resp 200 body) (hm : body.hasRateLimitMsg = false)
    (hdec : body.decode = .ok (header :: rows)) :
    (rows = [] → header ≠ [] →
      (fetchURLData env u latest rA d).result.status = "not found") ∧
    (rows ≠ [] →
      (fetchURLData env u latest rA d).result.status = "found" ∧
        (fetchURLData env u latest rA d).result.snapshotCount = rows.length ∧
        ((if latest then rows.getLastD [] else rows.headD []).get? 1
            = some (.str ts) →
          (if latest then rows.getLastD [] else rows.headD []).get? 2
            = some (.str orig) →
          (fetchURLData env u latest rA d).result.oldestURL
            = "http://web.archive.org/web/" ++ ts ++ "/" ++ orig)) := by
  constructor
  · intro hrownil hheader
    subst hrownil
    have hnr : attemptRetryable (.resp 200 body) = false := by
      simp [attemptRetryable, hm]
    obtain ⟨le', hloop⟩ := fetchLoop_break env u rA d (rA + 1) 0 none none 0 200
      body (by omega) le_rfl (Nat.zero_le rA)
      (fun j _ hj => absurd hj (Nat.not_lt_zero j)) h0 hnr
    have hres : (fetchURLData env u latest rA d).result
        = processResp u latest 200 body := by
      unfold fetchURLData
      rw [hloop]
    rw [hres]
    unfold processResp
    rw [if_neg (by simp)]
    simp only [hdec]
    rw [if_neg (by simp), if_pos ⟨by simp, List.length_pos.mpr hheader⟩]
  · intro hrows
    rw [fetchURLData_found_entry env u latest rA d body header rows h0 hm hdec hrows]
    refine ⟨(finishEntry_preserves _ _).2.1, (finishEntry_preserves _ _).2.2.1, ?_⟩
    intro h1 h2
    obtain ⟨hlt, _⟩ := List.get?_eq_some.mp h2
    unfold finishEntry
    rw [if_pos hlt, h1, h2]

/-- Witness for C8 at concrete inputs: one data row after the header,
oldest mode, URL built from its timestamp and original fields. -/
theorem found_selects_entry_and_builds_url_witness :
    (([[JVal.str "k", .str "20200101000000", .str "http://example.com"]]
        : List SnapshotEntry) = [] →
      ([JVal.str "urlkey", .str "timestamp", .str "original"]
        : SnapshotEntry) ≠ [] →
      (fetchURLData (fun _ => .resp 200 ⟨false,
          .ok [[.str "urlkey", .str "timestamp", .str "original"],
               [.str "k", .str "20200101000000", .str "http://example.com"]]⟩)
        "u" false 3 5000).result.status = "not found") ∧
    (([[JVal.str "k", .str "20200101000000", .str "http://example.com"]]
        : List SnapshotEntry) ≠ [] →
      (fetchURLData (fun _ => .resp 200 ⟨false,
          .ok [[.str "urlkey", .str "timestamp", .str "original"],
               [.str "k", .str "20200101000000", .str "http://example.com"]]⟩)
        "u" false 3 5000).result.status = "found" ∧
        (fetchURLData (fun _ => .resp 200 ⟨false,
            .ok [[.str "urlkey", .str "timestamp", .str "original"],
                 [.str "k", .str "20200101000000", .str "http://example.com"]]⟩)
          "u" false 3 5000).result.snapshotCount
          = ([[JVal.str "k", .str "20200101000000", .str "http://example.com"]]
              : List SnapshotEntry).length ∧
        ((if false then
            ([[JVal.str "k", .str "20200101000000", .str "http://example.com"]]
              : List SnapshotEntry).getLastD []
          else
            ([[JVal.str "k", .str "20200101000000", .str "http://example.com"]]
              : List SnapshotEntry).headD []).get? 1
            = some (.str "20200101000000") →
          (if false then
            ([[JVal.str "k", .str "20200101000000", .str "http://example.com"]]
              : List SnapshotEntry).getLastD []
          else
            ([[JVal.str "k", .str "20200101000000", .str "http://example.com"]]
              : List SnapshotEntry).headD []).get? 2
            = some (.str "http://example.com") →
          (fetchURLData (fun _ => .resp 200 ⟨false,
              .ok [[.str "urlkey", .str "timestamp", .str "original"],
                   [.str "k", .str "20200101000000", .str "http://example.com"]]⟩)
            "u" false 3 5000).result.oldestURL
            = "http://web.archive.org/web/" ++ "20200101000000" ++ "/"
              ++ "http://example.com")) :=
  found_selects_entry_and_builds_url
    (fun _ => .resp 200 ⟨false,
      .ok [[.str "urlkey", .str "timestamp", .str "original"],
           [.str "k", .str "20200101000000", .str "http://example.com"]]⟩)
    "u" false 3 5000 _ [.str "urlkey", .str "timestamp", .str "original"]
    [[.str "k", .str "20200101000000", .str "http://example.com"]]
    "20200101000000" "http://example.com" rfl rfl rfl

/-- C9: when the chosen snapshot entry has fewer than three fields, or
its position-1 or position-2 field is not a string, fetchURLData sets
ResolvedURL to the corresponding descriptive sentinel string while
Status remains "found" and the Error field remains nil. -/
theorem entry_anomaly_degrades_to_sentinel
    (env : Nat → AttemptResult) (u : String) (latest : Bool) (rA d : Nat)
    (body : Body) (header : SnapshotEntry) (rows : List SnapshotEntry)
    (h0 : env 0 = .resp 200 body) (hm : body.hasRateLimitMsg = false)
    (hdec : body.decode = .ok (header :: rows)) (hrows : rows ≠ []) :
    (fetchURLData env u latest rA d).result.status = "found" ∧
      (fetchURLData env u latest rA d).result.error = none ∧
      ((if latest then rows.getLastD [] else rows.headD []).length ≤ 2 →
        (fetchURLData env u latest rA d).result.oldestURL = sentinelFewFields) ∧
      (2 < (if latest then rows.getLastD [] else rows.headD []).length →
        ((if latest then rows.getLastD [] else rows.headD []).get? 1
            = some .other ∨
          (if latest then rows.getLastD [] else rows.headD []).get? 2
            = some .other) →
        (fetchURLData env u latest rA d).result.oldestURL = sentinelBadTypes) := by
  rw [fetchURLData_found_entry env u latest rA d body header rows h0 hm hdec hrows]
  refine ⟨(finishEntry_preserves _ _).2.1, (finishEntry_preserves _ _).2.2.2, ?_, ?_⟩
  · intro hle
    unfold finishEntry
    rw [if_neg (by omega)]
  · intro hgt hbad
    have h1lt : 1 < (if latest then rows.getLastD [] else rows.headD []).length := by
      omega
    unfold finishEntry
    rw [if_pos hgt]
    rcases hbad with hb | hb
    · rw [hb, List.get?_eq_get hgt]
    · rw [hb, List.get?_eq_get h1lt]
      cases (if latest then rows.getLastD [] else rows.headD []).get ⟨1, h1lt⟩ <;> rfl

/-- Witness for C9 at concrete inputs: the single data row has only one
field, so ResolvedURL degrades to the few-fields sentinel while the
status stays "found" with no error. -/
theorem entry_anomaly_degrades_to_sentinel_witness :
    (fetchURLData (fun _ => .resp 200 ⟨false,
        .ok [[.str "urlkey"], [.str "k"]]⟩) "u" false 3 5000).result.status
        = "found" ∧
      (fetchURLData (fun _ => .resp 200 ⟨false,
          .ok [[.str "urlkey"], [.str "k"]]⟩) "u" false 3 5000).result.error
        = none ∧
      ((if false then ([[JVal.str "k"]] : List SnapshotEntry).getLastD []
          else ([[JVal.str "k"]] : List SnapshotEntry).headD []).length ≤ 2 →
        (fetchURLData (fun _ => .resp 200 ⟨false,
            .ok [[.str "urlkey"], [.str "k"]]⟩) "u" false 3 5000).result.oldestURL
          = sentinelFewFields) ∧
      (2 < (if false then ([[JVal.str "k"]] : List SnapshotEntry).getLastD []
          else ([[JVal.str "k"]] : List SnapshotEntry).headD []).length →
        ((if false then ([[JVal.str "k"]] : List SnapshotEntry).getLastD []
            else ([[JVal.str "k"]] : List SnapshotEntry).headD []).get? 1
            = some .other ∨
          (if false then ([[JVal.str "k"]] : List SnapshotEntry).getLastD []
            else ([[JVal.str "k"]] : List SnapshotEntry).headD []).get? 2
            = some .other) →
        (fetchURLData (fun _ => .resp 200 ⟨false,
            .ok [[.str "urlkey"], [.str "k"]]⟩) "u" false 3 5000).result.oldestURL
          = sentinelBadTypes) :=
  entry_anomaly_degrades_to_sentinel
    (fun _ => .resp 200 ⟨false, .ok [[.str "urlkey"], [.str "k"]]⟩)
    "u" false 3 5000 _ [.str "urlkey"] [[.str "k"]] rfl rfl rfl (by decide)

/-- C1: for every job set of size M distributed among the workers in any
way (each job handed to exactly one worker) and results delivered in any
order, the pool produces exactly M Outcomes — one per Job, none
duplicated or lost — each with Status "found", "not found" or "error",
regardless of how many retries occurred inside any single fetch. -/
theorem worker_pool_one_outcome_per_job
    (envOf : String → Nat → AttemptResult) (latest : Bool) (rA d : Nat)
    (parts : List (List String)) (jobs : List String)
    (hjobs : (parts.flatten).Perm jobs)
    (results : List ProcessResult)
    (hres : results.Perm ((parts.map (worker envOf latest rA d)).flatten)) :
    results.length = jobs.length ∧
      ∀ o ∈ results, o.status = "found" ∨ o.status = "not found" ∨
        o.status = "error" := by
  constructor
  · rw [hres.length_eq, ← hjobs.length_eq, List.length_flatten,
      List.length_flatten, List.map_map]
    congr 1
    refine List.map_congr_left fun part _ => ?_
    simp [worker]
  · intro o ho
    have hmem := hres.mem_iff.mp ho
    obtain ⟨l, hl, hol⟩ := List.mem_flatten.mp hmem
    obtain ⟨part, _, rfl⟩ := List.mem_map.mp hl
    unfold worker at hol
    obtain ⟨targetURL, _, rfl⟩ := List.mem_map.mp hol
    exact fetchURLData_status_valid (envOf targetURL) targetURL latest rA d

/-- Witness for C1 at concrete inputs: two jobs split over two workers,
results delivered in reverse order, still two outcomes with valid
statuses. -/
theorem worker_pool_one_outcome_per_job_witness :
    ((worker (fun _ _ => .resp 200 ⟨false, .eof⟩) false 3 5000 ["b"]) ++
        (worker (fun _ _ => .resp 200 ⟨false, .eof⟩) false 3 5000 ["a"])).length
        = (["a", "b"] : List String).length ∧
      ∀ o ∈ (worker (fun _ _ => .resp 200 ⟨false, .eof⟩) false 3 5000 ["b"]) ++
          (worker (fun _ _ => .resp 200 ⟨false, .eof⟩) false 3 5000 ["a"]),
        o.status = "found" ∨ o.status = "not found" ∨ o.status = "error" :=
  worker_pool_one_outcome_per_job (fun _ _ => .resp 200 ⟨false, .eof⟩) false 3 5000
    [["a"], ["b"]] ["a", "b"] (by decide)
    ((worker (fun _ _ => .resp 200 ⟨false, .eof⟩) false 3 5000 ["b"]) ++
      (worker (fun _ _ => .resp 200 ⟨false, .eof⟩) false 3 5000 ["a"]))
    (by decide)
